import Mathlib

/-!
Verification of the Smart File Organizer core against its specification.

Shallow embedding of the Python sources under `src/smart_file_organizer/src/`:

* `deduplication/hash_engine.py`  — multi-stage duplicate index
* `monitoring/queue_manager.py`   — retry lifecycle of a processing task
* `monitoring/watcher.py`         — settling check and debounce handling
* `actions/conflict_resolver.py`  — rename-conflict name generation
* `actions/file_operations.py`    — the mover's conflict resolution
* `actions/history_tracker.py`    — undo ledger
* `classification/tier2_content.py` — content-pattern classifier

Modelling conventions:

* Paths are strings; byte strings are `List Nat`.
* The filesystem during one call is a pure snapshot `FS := Path → Option Content`
  (`none` = the file does not exist / any read of it raises `OSError`).
* SHA-256 is idealised as an injective function, so a hash value is
  represented by the exact byte string that the Python code feeds to the
  hasher (two hashes are equal iff the hashed bytes are equal).
* Python `dict`s become association lists with first-match lookup;
  Python fractional literals (0.1, 0.3, ...) become exact rationals
  (every comparison performed by the embedded code gives the same verdict
  on these rationals as on the corresponding IEEE doubles).
* Wall-clock fields (`created_at`, `started_at`, `completed_at`,
  `timestamp`) carry no specified behaviour and are omitted from the
  embedded records.
-/

namespace SFO

/-- File path (Python `pathlib.Path`, compared by equality). -/
abbrev Path := String

/-- Byte string (Python `bytes`). -/
abbrev Content := List Nat

/-- A pure snapshot of the filesystem during one call:
`none` means the file does not exist (stat/open raise `OSError`). -/
abbrev FS := Path → Option Content

/-! ### Association lists (Python `dict`) -/

/-- `dict` lookup: first entry whose key matches. -/
def alookup {α β : Type} [DecidableEq α] : List (α × β) → α → Option β
  | [], _ => none
  | (k, v) :: rest, k' => if k' = k then some v else alookup rest k'

/-- `dict` store `d[k] = v`: replace the binding in place, else append. -/
def aset {α β : Type} [DecidableEq α] : List (α × β) → α → β → List (α × β)
  | [], k, v => [(k, v)]
  | (k0, v0) :: rest, k, v =>
    if k = k0 then (k0, v) :: rest else (k0, v0) :: aset rest k v

/-- `del d[k]`: drop the (single) binding for `k`. -/
def aerase {α β : Type} [DecidableEq α] : List (α × β) → α → List (α × β)
  | [], _ => []
  | (k0, v0) :: rest, k => if k = k0 then rest else (k0, v0) :: aerase rest k

@[simp] theorem alookup_nil {α β : Type} [DecidableEq α] (k : α) :
    alookup ([] : List (α × β)) k = none := rfl

@[simp] theorem alookup_cons {α β : Type} [DecidableEq α] (k0 : α) (v0 : β)
    (rest : List (α × β)) (k : α) :
    alookup ((k0, v0) :: rest) k = if k = k0 then some v0 else alookup rest k := rfl

theorem alookup_aset_self {α β : Type} [DecidableEq α]
    (l : List (α × β)) (k : α) (v : β) :
    alookup (aset l k v) k = some v := by
  induction l with
  | nil => simp [aset, alookup]
  | cons hd tl ih =>
    obtain ⟨k0, v0⟩ := hd
    by_cases hk : k = k0
    · subst hk; simp [aset, alookup]
    · simp [aset, hk, alookup, ih]

theorem alookup_aset_ne {α β : Type} [DecidableEq α]
    (l : List (α × β)) (k k' : α) (v : β) (h : k' ≠ k) :
    alookup (aset l k v) k' = alookup l k' := by
  induction l with
  | nil => simp [aset, alookup, h]
  | cons hd tl ih =>
    obtain ⟨k0, v0⟩ := hd
    by_cases hk : k = k0
    · subst hk; simp [aset, alookup, h]
    · simp only [aset, if_neg hk, alookup_cons]
      by_cases hk' : k' = k0
      · simp [hk']
      · simp [hk', ih]

/-! ### Hashing (`hash_engine.py`, `PartialHasher` / `FullHasher`)

SHA-256 is idealised as injective, so a "hash" is the byte string that was
hashed.  `PartialHasher.compute` hashes the whole content for files of at
most three chunks, otherwise the first chunk, the chunk at `size // 2`, the
last chunk, and the decimal string of the size (lines 100-123). -/

/-- `str(file_size).encode()` (line 121). -/
def size_bytes (n : Nat) : Content := (toString n).data.map Char.toNat

/-- `PartialHasher.compute` — the bytes fed to SHA-256. -/
def phash_bytes (chunk_size : Nat) (c : Content) : Content :=
  if c.length ≤ chunk_size * 3 then c
  else
    c.take chunk_size
      ++ ((c.drop (c.length / 2)).take chunk_size)
      ++ c.drop (c.length - chunk_size)
      ++ size_bytes c.length

/-- `FullHasher.compute` — the bytes fed to SHA-256 are the whole file. -/
def full_hash_bytes (c : Content) : Content := c

/-! ### `DeduplicationEngine` (`hash_engine.py` lines 215-384) -/

/-- `DuplicateStatus` (lines 22-27). -/
inductive DuplicateStatus where
  | unique
  | exact_duplicate
  | likely_duplicate
  | size_match
deriving DecidableEq, Repr

/-- `HashResult` (lines 30-47); `partial_hash` is called `phash` here to
satisfy the identifier conventions of this development. -/
structure HashResult where
  file_path : Path
  file_size : Nat
  phash : Option Content := none
  full_hash : Option Content := none
  status : DuplicateStatus := .unique
  duplicate_of : Option Path := none
deriving DecidableEq, Repr

/-- The engine's index state (lines 224-239).  `_files_pending_partial`
is `pendingPhash`, `_partial_hash_index` is `phashIndex`,
`_path_to_partial_hash` is `pathToPhash`. -/
structure Engine where
  chunk_size : Nat := 4096
  sizeIndex : List (Nat × List Path) := []
  pendingPhash : List (Nat × List Path) := []
  phashIndex : List (Content × List Path) := []
  fullIndex : List (Content × Path) := []
  pathToPhash : List (Path × Content) := []
  pathToFull : List (Path × Content) := []
deriving DecidableEq, Repr

/-- A freshly constructed `DeduplicationEngine(chunk_size)`. -/
def Engine.empty (chunk_size : Nat := 4096) : Engine := { chunk_size := chunk_size }

/-- Lines 282-300: lazily hydrate the partial hashes of every candidate of
this size that is still pending; unreadable candidates are skipped
(`DeduplicationError` is caught and ignored). -/
def hydrate_phash (fs : FS) (chunk : Nat) :
    List Path → Engine → Engine
  | [], eng => eng
  | cand :: rest, eng =>
    match fs cand with
    | none => hydrate_phash fs chunk rest eng
    | some cc =>
      let ch := phash_bytes chunk cc
      let bucket := (alookup eng.phashIndex ch).getD []
      hydrate_phash fs chunk rest
        { eng with
          pathToPhash := aset eng.pathToPhash cand ch,
          phashIndex := aset eng.phashIndex ch (bucket ++ [cand]) }

/-- Stage-2 hydration step (lines 285-300): take the pending list for this
size; if non-empty, hydrate the candidates and delete the pending entry. -/
def phash_hydrate (fs : FS) (size : Nat) (eng : Engine) : Engine :=
  let candidates := (alookup eng.pendingPhash size).getD []
  if candidates = [] then eng
  else
    let eng' := hydrate_phash fs eng.chunk_size candidates eng
    { eng' with pendingPhash := aerase eng'.pendingPhash size }

/-- Lines 329-345: lazily compute full hashes for same-partial-hash
candidates, registering first owners of each full hash and stopping early
on a match; unreadable candidates are skipped. -/
def hydrate_full (fs : FS) (fh : Content) :
    List Path → Engine → Engine
  | [], eng => eng
  | cand :: rest, eng =>
    if (alookup eng.pathToFull cand).isSome then hydrate_full fs fh rest eng
    else
      match fs cand with
      | none => hydrate_full fs fh rest eng
      | some cc =>
        let ch := full_hash_bytes cc
        let eng' :=
          { eng with
            pathToFull := aset eng.pathToFull cand ch,
            fullIndex :=
              if (alookup eng.fullIndex ch).isNone
              then aset eng.fullIndex ch cand else eng.fullIndex }
        if ch = fh then eng' else hydrate_full fs fh rest eng'

/-- Lines 347-384: the final dispatch once the incoming file's full hash is
known.  The size-index and partial-index buckets exist on every path that
reaches this point (the size collided in stage 1 and the partial hash
collided in stage 2), so the `KeyError`-free accesses of the Python are
modelled with `getD []`. -/
def finalize (fs : FS) (eng : Engine) (p : Path) (size : Nat)
    (ph fh : Content) : HashResult × Engine :=
  match alookup eng.fullIndex fh with
  | some original_path =>
    if (fs original_path).isSome ∧ original_path ≠ p then
      -- true duplicate (lines 352-359)
      ({ file_path := p, file_size := size, phash := some ph,
         full_hash := some fh, status := .exact_duplicate,
         duplicate_of := some original_path }, eng)
    else
      -- original moved/deleted: re-point all three levels (lines 360-374)
      let sizeB := (alookup eng.sizeIndex size).getD []
      let sizeB' :=
        (if original_path ∈ sizeB then sizeB.erase original_path else sizeB) ++ [p]
      let phB := (alookup eng.phashIndex ph).getD []
      let phB' :=
        (if original_path ∈ phB then phB.erase original_path else phB) ++ [p]
      ({ file_path := p, file_size := size, phash := some ph,
         full_hash := some fh, status := .unique, duplicate_of := none },
       { eng with
         fullIndex := aset eng.fullIndex fh p,
         sizeIndex := aset eng.sizeIndex size sizeB',
         phashIndex := aset eng.phashIndex ph phB' })
  | none =>
    -- not a duplicate (lines 375-382)
    ({ file_path := p, file_size := size, phash := some ph,
       full_hash := some fh, status := .unique, duplicate_of := none },
     { eng with
       fullIndex := aset eng.fullIndex fh p,
       pathToFull := aset eng.pathToFull p fh,
       sizeIndex := aset eng.sizeIndex size
         (((alookup eng.sizeIndex size).getD []) ++ [p]),
       phashIndex := aset eng.phashIndex ph
         (((alookup eng.phashIndex ph).getD []) ++ [p]) })

/-- `DeduplicationEngine.check_duplicate` (lines 241-384).
`none` models the `DeduplicationError` raised when the file cannot be
statted (line 254-260). -/
def check_duplicate (fs : FS) (eng : Engine) (p : Path) :
    Option (HashResult × Engine) :=
  match fs p with
  | none => none
  | some c =>
    let size := c.length
    match alookup eng.sizeIndex size with
    | none =>
      -- stage 1 (lines 264-275): first file of this size, no hashing
      some ({ file_path := p, file_size := size, phash := none,
              full_hash := none, status := .unique, duplicate_of := none },
            { eng with
              sizeIndex := aset eng.sizeIndex size [p],
              pendingPhash := aset eng.pendingPhash size [p] })
    | some _ =>
      -- stage 2 (lines 277-312)
      let ph := phash_bytes eng.chunk_size c
      let engA := { eng with pathToPhash := aset eng.pathToPhash p ph }
      let engB := phash_hydrate fs size engA
      match alookup engB.phashIndex ph with
      | none =>
        some ({ file_path := p, file_size := size, phash := some ph,
                full_hash := none, status := .unique, duplicate_of := none },
              { engB with
                sizeIndex := aset engB.sizeIndex size
                  (((alookup engB.sizeIndex size).getD []) ++ [p]),
                phashIndex := aset engB.phashIndex ph [p] })
      | some _ =>
        -- stage 3 (lines 314-384)
        let fh := full_hash_bytes c
        let engC := { engB with pathToFull := aset engB.pathToFull p fh }
        let skip_candidates : Bool :=
          match alookup engC.fullIndex fh with
          | some original_path =>
            (fs original_path).isSome && (original_path != p)
          | none => false
        let engD : Engine :=
          cond skip_candidates engC
            (hydrate_full fs fh (((alookup engC.phashIndex ph).getD [])) engC)
        some (finalize fs engD p size ph fh)

/-! ### Theorems about the deduplication engine -/

/-- Either status produced by `finalize` (lines 347-384). -/
theorem finalize_status (fs : FS) (eng : Engine) (p : Path) (size : Nat)
    (ph fh : Content) :
    (finalize fs eng p size ph fh).1.status = .unique ∨
      (finalize fs eng p size ph fh).1.status = .exact_duplicate := by
  unfold finalize
  rcases hfi : alookup eng.fullIndex fh with _ | orig
  · left; rfl
  · by_cases hc : (fs orig).isSome = true ∧ orig ≠ p
    · right; simp [hc]
    · left; simp [hc]

/-- An `exact_duplicate` verdict from `finalize` always references a path
that exists in the snapshot and differs from the incoming path. -/
theorem finalize_exact_exists (fs : FS) (eng : Engine) (p : Path) (size : Nat)
    (ph fh : Content)
    (h : (finalize fs eng p size ph fh).1.status = .exact_duplicate) :
    ∃ q, (finalize fs eng p size ph fh).1.duplicate_of = some q ∧
      (fs q).isSome ∧ q ≠ p := by
  unfold finalize at h ⊢
  rcases hfi : alookup eng.fullIndex fh with _ | orig
  · rw [hfi] at h; simp at h
  · rw [hfi] at h
    by_cases hc : (fs orig).isSome = true ∧ orig ≠ p
    · exact ⟨orig, by simp [hc], hc.1, hc.2⟩
    · simp [hc] at h

/-- C9: `check_duplicate` only ever answers `unique` or `exact_duplicate`;
the declared `likely_duplicate` and `size_match` statuses are never
produced. -/
theorem check_duplicate_status_range (fs : FS) (eng : Engine) (p : Path)
    (r : HashResult) (eng' : Engine)
    (h : check_duplicate fs eng p = some (r, eng')) :
    r.status = .unique ∨ r.status = .exact_duplicate := by
  unfold check_duplicate at h
  split at h
  · simp at h
  · try dsimp only at h
    split at h
    · simp only [Option.some.injEq, Prod.mk.injEq] at h
      left; rw [← h.1]
    · try dsimp only at h
      split at h
      · simp only [Option.some.injEq, Prod.mk.injEq] at h
        left; rw [← h.1]
      · simp only [Option.some.injEq] at h
        have hr := congrArg Prod.fst h
        try dsimp only at hr
        rw [← hr]
        exact finalize_status _ _ _ _ _ _

/-- C2 core: a file whose size is not in the size index is recorded and
returned `unique` with no hash computed (lines 264-275). -/
theorem check_duplicate_new_size (fs : FS) (eng : Engine) (p : Path)
    (c : Content) (hfs : fs p = some c)
    (hsize : alookup eng.sizeIndex c.length = none) :
    check_duplicate fs eng p =
      some ({ file_path := p, file_size := c.length, phash := none,
              full_hash := none, status := .unique, duplicate_of := none },
            { eng with
              sizeIndex := aset eng.sizeIndex c.length [p],
              pendingPhash := aset eng.pendingPhash c.length [p] }) := by
  simp [check_duplicate, hfs, hsize]

/-- C1 core: starting from a fresh engine, of two distinct on-disk paths
with identical bytes the first checked is `unique` and the second is an
`exact_duplicate` of the first, whichever of the two is checked first
(the paths are universally quantified). -/
theorem check_duplicate_pair (chunk : Nat) (fs : FS) (p1 p2 : Path)
    (c : Content) (hne : p1 ≠ p2) (h1 : fs p1 = some c) (h2 : fs p2 = some c) :
    ∃ r1 eng1 r2 eng2,
      check_duplicate fs (Engine.empty chunk) p1 = some (r1, eng1) ∧
      r1.status = .unique ∧
      check_duplicate fs eng1 p2 = some (r2, eng2) ∧
      r2.status = .exact_duplicate ∧
      r2.duplicate_of = some p1 := by
  have e1 : check_duplicate fs (Engine.empty chunk) p1 =
      some ({ file_path := p1, file_size := c.length, phash := none,
              full_hash := none, status := .unique, duplicate_of := none },
            { chunk_size := chunk, sizeIndex := [(c.length, [p1])],
              pendingPhash := [(c.length, [p1])], phashIndex := [],
              fullIndex := [], pathToPhash := [], pathToFull := [] }) :=
    check_duplicate_new_size fs (Engine.empty chunk) p1 c h1 rfl
  have e2 : check_duplicate fs
      { chunk_size := chunk, sizeIndex := [(c.length, [p1])],
        pendingPhash := [(c.length, [p1])], phashIndex := [],
        fullIndex := [], pathToPhash := [], pathToFull := [] } p2 =
      some ({ file_path := p2, file_size := c.length,
              phash := some (phash_bytes chunk c), full_hash := some c,
              status := .exact_duplicate, duplicate_of := some p1 },
            { chunk_size := chunk, sizeIndex := [(c.length, [p1])],
              pendingPhash := [],
              phashIndex := [(phash_bytes chunk c, [p1])],
              fullIndex := [(c, p1)],
              pathToPhash := [(p2, phash_bytes chunk c), (p1, phash_bytes chunk c)],
              pathToFull := [(p2, c), (p1, c)] }) := by
    simp [check_duplicate, phash_hydrate, hydrate_phash, hydrate_full,
      finalize, aset, aerase, full_hash_bytes, h1, h2, hne, Ne.symm hne]
  exact ⟨_, _, _, _, e1, rfl, e2, rfl, rfl⟩

/-! Preservation lemmas: stage-2 hydration never touches the size index,
the full-hash index or the chunk size; stage-3 hydration never touches the
size index or the partial-hash index, and never displaces an existing
full-hash binding. -/

theorem hydrate_phash_sizeIndex (fs : FS) (chunk : Nat) (l : List Path)
    (eng : Engine) : (hydrate_phash fs chunk l eng).sizeIndex = eng.sizeIndex := by
  induction l generalizing eng with
  | nil => rfl
  | cons cand rest ih =>
    unfold hydrate_phash
    rcases fs cand with _ | cc
    · exact ih eng
    · exact ih _

theorem hydrate_phash_fullIndex (fs : FS) (chunk : Nat) (l : List Path)
    (eng : Engine) : (hydrate_phash fs chunk l eng).fullIndex = eng.fullIndex := by
  induction l generalizing eng with
  | nil => rfl
  | cons cand rest ih =>
    unfold hydrate_phash
    rcases fs cand with _ | cc
    · exact ih eng
    · exact ih _

theorem hydrate_phash_pathToFull (fs : FS) (chunk : Nat) (l : List Path)
    (eng : Engine) : (hydrate_phash fs chunk l eng).pathToFull = eng.pathToFull := by
  induction l generalizing eng with
  | nil => rfl
  | cons cand rest ih =>
    unfold hydrate_phash
    rcases fs cand with _ | cc
    · exact ih eng
    · exact ih _

theorem hydrate_phash_chunk (fs : FS) (chunk : Nat) (l : List Path)
    (eng : Engine) : (hydrate_phash fs chunk l eng).chunk_size = eng.chunk_size := by
  induction l generalizing eng with
  | nil => rfl
  | cons cand rest ih =>
    unfold hydrate_phash
    rcases fs cand with _ | cc
    · exact ih eng
    · exact ih _

theorem phash_hydrate_sizeIndex (fs : FS) (size : Nat) (eng : Engine) :
    (phash_hydrate fs size eng).sizeIndex = eng.sizeIndex := by
  unfold phash_hydrate
  dsimp only
  split
  · rfl
  · exact hydrate_phash_sizeIndex ..

theorem phash_hydrate_fullIndex (fs : FS) (size : Nat) (eng : Engine) :
    (phash_hydrate fs size eng).fullIndex = eng.fullIndex := by
  unfold phash_hydrate
  dsimp only
  split
  · rfl
  · exact hydrate_phash_fullIndex ..

theorem phash_hydrate_pathToFull (fs : FS) (size : Nat) (eng : Engine) :
    (phash_hydrate fs size eng).pathToFull = eng.pathToFull := by
  unfold phash_hydrate
  dsimp only
  split
  · rfl
  · exact hydrate_phash_pathToFull ..

theorem hydrate_full_sizeIndex (fs : FS) (fh : Content) (l : List Path)
    (eng : Engine) : (hydrate_full fs fh l eng).sizeIndex = eng.sizeIndex := by
  induction l generalizing eng with
  | nil => rfl
  | cons cand rest ih =>
    unfold hydrate_full
    split
    · exact ih eng
    · rcases fs cand with _ | cc
      · exact ih eng
      · dsimp only
        split
        · rfl
        · exact ih _

theorem hydrate_full_phashIndex (fs : FS) (fh : Content) (l : List Path)
    (eng : Engine) : (hydrate_full fs fh l eng).phashIndex = eng.phashIndex := by
  induction l generalizing eng with
  | nil => rfl
  | cons cand rest ih =>
    unfold hydrate_full
    split
    · exact ih eng
    · rcases fs cand with _ | cc
      · exact ih eng
      · dsimp only
        split
        · rfl
        · exact ih _

/-- An existing full-hash binding survives the lazy stage-3 hydration:
first owners are only registered for hashes not yet in the index. -/
theorem hydrate_full_alookup_present (fs : FS) (fh : Content) (l : List Path)
    (eng : Engine) (k : Content) (q : Path)
    (hq : alookup eng.fullIndex k = some q) :
    alookup (hydrate_full fs fh l eng).fullIndex k = some q := by
  induction l generalizing eng with
  | nil => exact hq
  | cons cand rest ih =>
    unfold hydrate_full
    split
    · exact ih eng hq
    · rcases fs cand with _ | cc
      · exact ih eng hq
      · dsimp only
        by_cases hck : full_hash_bytes cc = k
        · rw [hck, hq]
          simp only [Option.isSome_some, Bool.not_true, Option.isNone_some,
            Bool.false_eq_true, if_false]
          split
          · exact hq
          · exact ih _ hq
        · have hset : alookup
              (if (alookup eng.fullIndex (full_hash_bytes cc)).isNone = true
               then aset eng.fullIndex (full_hash_bytes cc) cand
               else eng.fullIndex) k = some q := by
            split
            · rw [alookup_aset_ne _ _ _ _ (fun hkk => hck hkk.symm)]
              exact hq
            · exact hq
          split
          · exact hset
          · exact ih _ hset

/-- C3 core: when the full-hash match points at a path that is gone from
the disk (or is the incoming path itself), `check_duplicate` answers
`unique` and re-points all three index levels — full-hash map, size
bucket, partial-hash bucket — from the stale path to the incoming path.
The bucket-multiplicity hypotheses record that the stale path occurs at
most once per bucket, which holds in every state the engine itself
builds. -/
theorem check_duplicate_stale_repoint (fs : FS) (eng : Engine) (p : Path)
    (c : Content) (szb phb : List Path) (orig : Path)
    (h1 : fs p = some c)
    (hsz : alookup eng.sizeIndex c.length = some szb)
    (hph : alookup (phash_hydrate fs c.length
        { eng with
          pathToPhash := aset eng.pathToPhash p
            (phash_bytes eng.chunk_size c) }).phashIndex
        (phash_bytes eng.chunk_size c) = some phb)
    (hfull : alookup eng.fullIndex (full_hash_bytes c) = some orig)
    (hstale : fs orig = none ∨ orig = p)
    (hszcnt : szb.count orig ≤ 1)
    (hphcnt : phb.count orig ≤ 1) :
    ∃ r eng',
      check_duplicate fs eng p = some (r, eng') ∧
      r.status = .unique ∧ r.duplicate_of = none ∧
      alookup eng'.fullIndex (full_hash_bytes c) = some p ∧
      (∃ szb' phb',
        alookup eng'.sizeIndex c.length = some szb' ∧
        alookup eng'.phashIndex (phash_bytes eng.chunk_size c) = some phb' ∧
        p ∈ szb' ∧ p ∈ phb' ∧
        (orig ≠ p → orig ∉ szb' ∧ orig ∉ phb')) := by
  set ph := phash_bytes eng.chunk_size c with hphdef
  set fh := full_hash_bytes c with hfhdef
  set engA : Engine :=
    { eng with pathToPhash := aset eng.pathToPhash p ph } with hA
  set engB := phash_hydrate fs c.length engA with hB
  set engC : Engine :=
    { engB with pathToFull := aset engB.pathToFull p fh } with hC
  have hCfull : engC.fullIndex = eng.fullIndex := by
    rw [hC]
    show engB.fullIndex = eng.fullIndex
    rw [hB, phash_hydrate_fullIndex]
  have hCph : engC.phashIndex = engB.phashIndex := rfl
  have hcondF : ¬((fs orig).isSome = true ∧ orig ≠ p) := by
    rcases hstale with h | h
    · intro hc; rw [h] at hc; simp at hc
    · intro hc; exact hc.2 h
  set engD := hydrate_full fs fh phb engC with hD
  have hDfull : alookup engD.fullIndex fh = some orig := by
    rw [hD]
    exact hydrate_full_alookup_present fs fh phb engC fh orig (hCfull ▸ hfull)
  have hDsize : engD.sizeIndex = eng.sizeIndex := by
    rw [hD, hydrate_full_sizeIndex]
    show engB.sizeIndex = eng.sizeIndex
    rw [hB, phash_hydrate_sizeIndex]
  have hDph : engD.phashIndex = engB.phashIndex := by
    rw [hD, hydrate_full_phashIndex]
  -- the call reduces to `finalize` on the hydrated state
  have ecall : check_duplicate fs eng p =
      some (finalize fs engD p c.length ph fh) := by
    unfold check_duplicate
    rw [h1]
    dsimp only
    rw [hsz]
    dsimp only
    rw [← hphdef, ← hA, ← hB, hph]
    dsimp only
    rw [← hfhdef, ← hC, hCfull, hfull]
    dsimp only
    rcases hstale with h | h
    · rw [h]
      simp only [Option.isSome_none, Bool.false_and, cond_false, Option.getD_some]
    · have hbe : (orig != p) = false := by subst h; simp
      rw [hbe]
      simp only [Bool.and_false, cond_false, Option.getD_some]
  -- `finalize` takes the stale re-pointing branch
  set szb' := (if orig ∈ szb then szb.erase orig else szb) ++ [p] with hszb'
  set phb' := (if orig ∈ phb then phb.erase orig else phb) ++ [p] with hphb'
  have efin : finalize fs engD p c.length ph fh =
      ({ file_path := p, file_size := c.length, phash := some ph,
         full_hash := some fh, status := .unique, duplicate_of := none },
       { engD with
         fullIndex := aset engD.fullIndex fh p,
         sizeIndex := aset engD.sizeIndex c.length szb',
         phashIndex := aset engD.phashIndex ph phb' }) := by
    unfold finalize
    rw [hDfull]
    split
    next original_path heq =>
      injection heq with heq1
      subst heq1
      rw [if_neg hcondF]
      dsimp only
      rw [hDsize, hsz, hDph, hph]
      simp only [Option.getD_some]
    next heq => simp at heq
  have hmem_p_szb' : p ∈ szb' := by
    rw [hszb']; exact List.mem_append_right _ (List.mem_singleton.mpr rfl)
  have hmem_p_phb' : p ∈ phb' := by
    rw [hphb']; exact List.mem_append_right _ (List.mem_singleton.mpr rfl)
  have horig_out : orig ≠ p → orig ∉ szb' ∧ orig ∉ phb' := by
    intro hop
    constructor
    · rw [hszb']
      intro hmem
      rcases List.mem_append.mp hmem with hmem | hmem
      · by_cases hin : orig ∈ szb
        · rw [if_pos hin] at hmem
          have hcnt := List.count_erase_self orig szb
          have h1le : 1 ≤ szb.count orig := List.one_le_count_iff.mpr hin
          have : (szb.erase orig).count orig = 0 := by omega
          exact (List.count_eq_zero.mp this) hmem
        · rw [if_neg hin] at hmem; exact hin hmem
      · exact hop (List.mem_singleton.mp hmem)
    · rw [hphb']
      intro hmem
      rcases List.mem_append.mp hmem with hmem | hmem
      · by_cases hin : orig ∈ phb
        · rw [if_pos hin] at hmem
          have hcnt := List.count_erase_self orig phb
          have h1le : 1 ≤ phb.count orig := List.one_le_count_iff.mpr hin
          have : (phb.erase orig).count orig = 0 := by omega
          exact (List.count_eq_zero.mp this) hmem
        · rw [if_neg hin] at hmem; exact hin hmem
      · exact hop (List.mem_singleton.mp hmem)
  refine ⟨_, _, by rw [ecall, efin], rfl, rfl, ?_, szb', phb', ?_, ?_,
    hmem_p_szb', hmem_p_phb', horig_out⟩
  · exact alookup_aset_self ..
  · exact alookup_aset_self ..
  · show alookup (aset engD.phashIndex ph phb') ph = some phb'
    exact alookup_aset_self ..

/-! Concrete filesystems used to instantiate the engine theorems. -/

/-- Two distinct paths holding the same single byte. -/
def fsPair : FS := fun q =>
  if q = "a" then some [1] else if q = "b" then some [1] else none

/-- Snapshot in which the indexed original `"a"` has been deleted and a new
identical-content file `"b"` has appeared. -/
def fsStale : FS := fun q => if q = "b" then some [1] else none

/-- Engine state after `"a"` (content `[1]`) was indexed through all three
levels. -/
def engStale : Engine :=
  { chunk_size := 4096, sizeIndex := [(1, ["a"])], pendingPhash := [],
    phashIndex := [([1], ["a"])], fullIndex := [([1], "a")],
    pathToPhash := [("a", [1])], pathToFull := [("a", [1])] }

theorem check_duplicate_pair_witness :
    ∃ r1 eng1 r2 eng2,
      check_duplicate fsPair (Engine.empty 4096) "a" = some (r1, eng1) ∧
      r1.status = .unique ∧
      check_duplicate fsPair eng1 "b" = some (r2, eng2) ∧
      r2.status = .exact_duplicate ∧
      r2.duplicate_of = some "a" :=
  check_duplicate_pair 4096 fsPair "a" "b" [1] (by decide) rfl rfl

theorem check_duplicate_new_size_witness :
    check_duplicate fsPair (Engine.empty 4096) "a" =
      some ({ file_path := "a", file_size := 1, phash := none,
              full_hash := none, status := .unique, duplicate_of := none },
            { chunk_size := 4096, sizeIndex := [(1, ["a"])],
              pendingPhash := [(1, ["a"])], phashIndex := [], fullIndex := [],
              pathToPhash := [], pathToFull := [] }) :=
  check_duplicate_new_size fsPair (Engine.empty 4096) "a" [1] rfl rfl

theorem check_duplicate_status_range_witness :
    ({ file_path := "a", file_size := 1, phash := none, full_hash := none,
       status := .unique, duplicate_of := none } : HashResult).status =
        DuplicateStatus.unique ∨
    ({ file_path := "a", file_size := 1, phash := none, full_hash := none,
       status := .unique, duplicate_of := none } : HashResult).status =
        DuplicateStatus.exact_duplicate :=
  check_duplicate_status_range fsPair (Engine.empty 4096) "a"
    { file_path := "a", file_size := 1, phash := none, full_hash := none,
      status := .unique, duplicate_of := none }
    { chunk_size := 4096, sizeIndex := [(1, ["a"])],
      pendingPhash := [(1, ["a"])], phashIndex := [], fullIndex := [],
      pathToPhash := [], pathToFull := [] } rfl

theorem check_duplicate_stale_repoint_witness :
    ∃ r eng',
      check_duplicate fsStale engStale "b" = some (r, eng') ∧
      r.status = .unique ∧ r.duplicate_of = none ∧
      alookup eng'.fullIndex (full_hash_bytes [1]) = some "b" ∧
      (∃ szb' phb',
        alookup eng'.sizeIndex (List.length ([1] : Content)) = some szb' ∧
        alookup eng'.phashIndex (phash_bytes engStale.chunk_size [1]) = some phb' ∧
        "b" ∈ szb' ∧ "b" ∈ phb' ∧
        ("a" ≠ "b" → "a" ∉ szb' ∧ "a" ∉ phb')) :=
  check_duplicate_stale_repoint fsStale engStale "b" [1] ["a"] ["a"] "a"
    rfl rfl rfl rfl (Or.inl rfl) (by decide) (by decide)

/-! ### `ProcessingQueueManager` (`queue_manager.py`)

The retry lifecycle of one task.  A worker invocation either succeeds
(`true`) or fails (`false`, covering both a `False` return and an
exception); `_handle_failure` (lines 278-315) retries while
`can_retry()` holds and otherwise marks the task failed and drops it from
`_active_tasks`.  `run_attempts` folds a task over the outcome sequence of
its successive executions and reports the final task together with whether
it was removed from the active-task set (`true` for the terminal
completed/failed transitions, `false` while it is still queued or
retrying). -/

/-- `ProcessingStatus` (lines 23-31). -/
inductive ProcessingStatus where
  | pending
  | processing
  | completed
  | failed
  | retrying
  | skipped
deriving DecidableEq, Repr

/-- `ProcessingTask` (lines 34-56); wall-clock fields omitted. -/
structure ProcessingTask where
  file_path : String
  status : ProcessingStatus := .pending
  retry_count : Nat := 0
  max_retries : Nat := 3
  error : Option String := none
deriving DecidableEq, Repr

/-- `mark_processing` (lines 58-61). -/
def ProcessingTask.mark_processing (t : ProcessingTask) : ProcessingTask :=
  { t with status := .processing }

/-- `mark_completed` (lines 63-66). -/
def ProcessingTask.mark_completed (t : ProcessingTask) : ProcessingTask :=
  { t with status := .completed }

/-- `mark_failed` (lines 68-76). -/
def ProcessingTask.mark_failed (t : ProcessingTask) (e : String) : ProcessingTask :=
  { t with status := .failed, error := some e }

/-- `can_retry` (lines 78-80). -/
def ProcessingTask.can_retry (t : ProcessingTask) : Bool :=
  t.retry_count < t.max_retries

/-- `increment_retry` (lines 82-88). -/
def ProcessingTask.increment_retry (t : ProcessingTask) : ProcessingTask :=
  { t with retry_count := t.retry_count + 1, status := .retrying, error := none }

/-- One task's life across the outcomes of its successive worker
executions (`_process_task` + `_handle_success` / `_handle_failure`).
The boolean in the result is `true` iff the task was popped from
`_active_tasks`. -/
def run_attempts (t : ProcessingTask) (err : String) :
    List Bool → ProcessingTask × Bool
  | [] => (t, false)
  | ok :: rest =>
    let t1 := t.mark_processing
    if ok then (t1.mark_completed, true)
    else if t1.can_retry then run_attempts (t1.increment_retry) err rest
    else (t1.mark_failed err, true)

theorem run_attempts_completed (err : String) :
    ∀ (k : Nat) (t : ProcessingTask), t.retry_count + k ≤ t.max_retries →
      (run_attempts t err (List.replicate k false ++ [true])).1.status = .completed ∧
      (run_attempts t err (List.replicate k false ++ [true])).1.retry_count =
        t.retry_count + k ∧
      (run_attempts t err (List.replicate k false ++ [true])).2 = true := by
  intro k
  induction k with
  | zero =>
    intro t ht
    simp [run_attempts, ProcessingTask.mark_processing,
      ProcessingTask.mark_completed]
  | succ k ih =>
    intro t ht
    have hcr : (t.mark_processing).can_retry = true := by
      simp [ProcessingTask.can_retry, ProcessingTask.mark_processing]
      omega
    have hstep : run_attempts t err (List.replicate (k + 1) false ++ [true]) =
        run_attempts ((t.mark_processing).increment_retry) err
          (List.replicate k false ++ [true]) := by
      rw [List.replicate_succ]
      simp [run_attempts, hcr]
    have ih' := ih ((t.mark_processing).increment_retry)
      (by simp [ProcessingTask.increment_retry, ProcessingTask.mark_processing]; omega)
    rw [hstep]
    refine ⟨ih'.1, ?_, ih'.2.2⟩
    rw [ih'.2.1]
    simp [ProcessingTask.increment_retry, ProcessingTask.mark_processing]
    omega

theorem run_attempts_failed (err : String) :
    ∀ (k : Nat) (t : ProcessingTask), t.retry_count + k = t.max_retries →
      (run_attempts t err (List.replicate (k + 1) false)).1.status = .failed ∧
      (run_attempts t err (List.replicate (k + 1) false)).1.retry_count =
        t.max_retries ∧
      (run_attempts t err (List.replicate (k + 1) false)).2 = true := by
  intro k
  induction k with
  | zero =>
    intro t ht
    have hcr : (t.mark_processing).can_retry = false := by
      simp [ProcessingTask.can_retry, ProcessingTask.mark_processing]
      omega
    have hrun : run_attempts t err (List.replicate (0 + 1) false) =
        ((t.mark_processing).mark_failed err, true) := by
      simp [run_attempts, hcr]
    rw [hrun]
    refine ⟨rfl, ?_, rfl⟩
    simp [ProcessingTask.mark_failed, ProcessingTask.mark_processing]
    omega
  | succ k ih =>
    intro t ht
    have hcr : (t.mark_processing).can_retry = true := by
      simp [ProcessingTask.can_retry, ProcessingTask.mark_processing]
      omega
    have hstep : run_attempts t err (List.replicate (k + 1 + 1) false) =
        run_attempts ((t.mark_processing).increment_retry) err
          (List.replicate (k + 1) false) := by
      rw [List.replicate_succ]
      simp [run_attempts, hcr]
    have ih' := ih ((t.mark_processing).increment_retry)
      (by simp [ProcessingTask.increment_retry, ProcessingTask.mark_processing]; omega)
    rw [hstep]
    refine ⟨ih'.1, ?_, ih'.2.2⟩
    rw [ih'.2.1]
    simp [ProcessingTask.increment_retry, ProcessingTask.mark_processing]

/-- C4 counterexample: a fresh task with `max_retries = 1` that fails
exactly `max_retries` (= 1) times is `retrying` — not `failed` — and is
still in the active-task set (it has been re-enqueued by the retry
timer). -/
theorem run_attempts_max_failures_still_retrying :
    (run_attempts { file_path := "f", max_retries := 1 } "boom"
        (List.replicate 1 false)).1.status = ProcessingStatus.retrying ∧
    (run_attempts { file_path := "f", max_retries := 1 } "boom"
        (List.replicate 1 false)).2 = false :=
  ⟨rfl, rfl⟩

/-- C4 amended: a task that fails `k < max_retries` times and then
succeeds ends `completed` with `retry_count = k` and is removed from the
active set; a task that fails `max_retries + 1` times (the initial
attempt plus its `max_retries` retries) ends `failed` and is removed from
the active set. -/
theorem task_retry_lifecycle (err : String) :
    (∀ (k : Nat) (t : ProcessingTask), t.retry_count = 0 → k < t.max_retries →
      (run_attempts t err (List.replicate k false ++ [true])).1.status = .completed ∧
      (run_attempts t err (List.replicate k false ++ [true])).1.retry_count = k ∧
      (run_attempts t err (List.replicate k false ++ [true])).2 = true) ∧
    (∀ t : ProcessingTask, t.retry_count = 0 →
      (run_attempts t err (List.replicate (t.max_retries + 1) false)).1.status = .failed ∧
      (run_attempts t err (List.replicate (t.max_retries + 1) false)).2 = true) := by
  constructor
  · intro k t ht hk
    have := run_attempts_completed err k t (by omega)
    rw [ht] at this
    simpa using this
  · intro t ht
    have := run_attempts_failed err t.max_retries t (by omega)
    exact ⟨this.1, this.2.2⟩

theorem task_retry_lifecycle_witness :
    ((run_attempts { file_path := "f" } "e" (List.replicate 2 false ++ [true])).1.status =
        ProcessingStatus.completed ∧
      (run_attempts { file_path := "f" } "e" (List.replicate 2 false ++ [true])).1.retry_count = 2 ∧
      (run_attempts { file_path := "f" } "e" (List.replicate 2 false ++ [true])).2 = true) ∧
    ((run_attempts { file_path := "f" } "e" (List.replicate 4 false)).1.status =
        ProcessingStatus.failed ∧
      (run_attempts { file_path := "f" } "e" (List.replicate 4 false)).2 = true) :=
  ⟨(task_retry_lifecycle "e").1 2 { file_path := "f" } rfl (by decide),
   (task_retry_lifecycle "e").2 { file_path := "f" } rfl⟩

/-! ### Rename-conflict resolution (`conflict_resolver.py` / `file_operations.py`)

Both resolvers probe `parent / f"{stem}_{counter}{suffix}"` for
`counter = 1, 2, ...` and return the first name that does not exist.
They differ past their bounds: `ConflictResolver._generate_unique_name`
(lines 145-170, bound 9999) falls back to a timestamp-suffixed name, while
`FileOperations._resolve_conflict` (lines 161-189, bound 1000) raises
`FileProcessingError("Too many files with same name")`.
`ex` is the `Path.exists()` predicate of the moment; the timestamp string
is a parameter. -/

/-- `parent / f"{stem}_{counter}{suffix}"` rendered as a path string. -/
def counter_name (parent stem sfx : String) (n : Nat) : String :=
  parent ++ "/" ++ stem ++ "_" ++ toString n ++ sfx

/-- `parent / f"{stem}_{timestamp}{suffix}"`. -/
def timestamp_name (parent stem sfx ts : String) : String :=
  parent ++ "/" ++ stem ++ "_" ++ ts ++ sfx

/-- The loop of `ConflictResolver._generate_unique_name` (lines 158-170):
fuel counts the remaining probes before the counter passes 9999. -/
def cr_try (ex : Path → Bool) (ts parent stem sfx : String) :
    Nat → Nat → Path
  | 0, _ => timestamp_name parent stem sfx ts
  | fuel + 1, counter =>
    let new_path := counter_name parent stem sfx counter
    if ex new_path = false then new_path
    else cr_try ex ts parent stem sfx fuel (counter + 1)

/-- `ConflictResolver._generate_unique_name` (lines 145-170): counters 1
through 9999 are probed, then the timestamp fallback is returned. -/
def cr_generate_unique_name (ex : Path → Bool) (ts parent stem sfx : String) :
    Path :=
  cr_try ex ts parent stem sfx 9999 1

/-- The loop of `FileOperations._resolve_conflict` (lines 177-189): fuel
counts the remaining probes before the counter passes 1000. -/
def fo_try (ex : Path → Bool) (parent stem sfx : String) :
    Nat → Nat → Except String Path
  | 0, _ => .error "Too many files with same name"
  | fuel + 1, counter =>
    let new_path := counter_name parent stem sfx counter
    if ex new_path = false then .ok new_path
    else fo_try ex parent stem sfx fuel (counter + 1)

/-- `FileOperations._resolve_conflict` (lines 161-189), used by
`move_file`, `copy_file` and `rename_file`: counters 1 through 1000 are
probed, then `FileProcessingError` is raised (modelled as `.error`). -/
def fo_resolve_conflict (ex : Path → Bool) (parent stem sfx : String) :
    Except String Path :=
  let dest := parent ++ "/" ++ stem ++ sfx
  if ex dest = false then .ok dest
  else fo_try ex parent stem sfx 1000 1

theorem cr_try_first_free (ex : Path → Bool) (ts parent stem sfx : String) :
    ∀ (i fuel counter : Nat), i < fuel →
      (∀ j, counter ≤ j → j < counter + i →
        ex (counter_name parent stem sfx j) = true) →
      ex (counter_name parent stem sfx (counter + i)) = false →
      cr_try ex ts parent stem sfx fuel counter =
        counter_name parent stem sfx (counter + i) := by
  intro i
  induction i with
  | zero =>
    intro fuel counter hfu _ hfree
    obtain ⟨f, rfl⟩ : ∃ f, fuel = f + 1 := ⟨fuel - 1, by omega⟩
    rw [Nat.add_zero] at hfree ⊢
    simp [cr_try, hfree]
  | succ i ih =>
    intro fuel counter hfu hocc hfree
    obtain ⟨f, rfl⟩ : ∃ f, fuel = f + 1 := ⟨fuel - 1, by omega⟩
    have hcur : ex (counter_name parent stem sfx counter) = true :=
      hocc counter (le_refl _) (by omega)
    have heq : counter + (i + 1) = (counter + 1) + i := by omega
    rw [heq]
    have := ih (f) (counter + 1) (by omega)
      (fun j hj1 hj2 => hocc j (by omega) (by omega))
      (by rw [← heq]; exact hfree)
    simp [cr_try, hcur]
    exact this

theorem fo_try_first_free (ex : Path → Bool) (parent stem sfx : String) :
    ∀ (i fuel counter : Nat), i < fuel →
      (∀ j, counter ≤ j → j < counter + i →
        ex (counter_name parent stem sfx j) = true) →
      ex (counter_name parent stem sfx (counter + i)) = false →
      fo_try ex parent stem sfx fuel counter =
        .ok (counter_name parent stem sfx (counter + i)) := by
  intro i
  induction i with
  | zero =>
    intro fuel counter hfu _ hfree
    obtain ⟨f, rfl⟩ : ∃ f, fuel = f + 1 := ⟨fuel - 1, by omega⟩
    rw [Nat.add_zero] at hfree ⊢
    simp [fo_try, hfree]
  | succ i ih =>
    intro fuel counter hfu hocc hfree
    obtain ⟨f, rfl⟩ : ∃ f, fuel = f + 1 := ⟨fuel - 1, by omega⟩
    have hcur : ex (counter_name parent stem sfx counter) = true :=
      hocc counter (le_refl _) (by omega)
    have heq : counter + (i + 1) = (counter + 1) + i := by omega
    rw [heq]
    have := ih (f) (counter + 1) (by omega)
      (fun j hj1 hj2 => hocc j (by omega) (by omega))
      (by rw [← heq]; exact hfree)
    simp [fo_try, hcur]
    exact this

theorem cr_try_exhaust (ex : Path → Bool) (ts parent stem sfx : String)
    (hall : ∀ j, ex (counter_name parent stem sfx j) = true) :
    ∀ (fuel counter : Nat),
      cr_try ex ts parent stem sfx fuel counter =
        timestamp_name parent stem sfx ts := by
  intro fuel
  induction fuel with
  | zero => intro counter; rfl
  | succ f ih =>
    intro counter
    simp [cr_try, hall counter]
    exact ih (counter + 1)

theorem fo_try_exhaust (ex : Path → Bool) (parent stem sfx : String)
    (hall : ∀ j, ex (counter_name parent stem sfx j) = true) :
    ∀ (fuel counter : Nat),
      fo_try ex parent stem sfx fuel counter =
        .error "Too many files with same name" := by
  intro fuel
  induction fuel with
  | zero => intro counter; rfl
  | succ f ih =>
    intro counter
    simp [fo_try, hall counter]
    exact ih (counter + 1)

/-- C5 counterexample: on a filesystem where every candidate name exists,
the mover's resolver (`FileOperations._resolve_conflict`, the code path
used by the pipeline's `move_file`) raises
`FileProcessingError("Too many files with same name")` once the counter
passes its bound — it does not fall back to a timestamp-suffixed name. -/
theorem fo_resolve_conflict_raises :
    fo_resolve_conflict (fun _ => true) "d" "report" ".pdf" =
      .error "Too many files with same name" := by
  unfold fo_resolve_conflict
  simp
  exact fo_try_exhaust (fun _ => true) "d" "report" ".pdf" (fun _ => rfl) 1000 1

/-- C5 amended: on a collision both resolvers probe `_1, _2, ...` in order
and return the first non-existing name; past its bound,
`ConflictResolver._generate_unique_name` falls back to a
timestamp-suffixed name, but `FileOperations._resolve_conflict` — the
resolver the pipeline's mover actually uses — raises
`FileProcessingError` instead. -/
theorem rename_conflict_resolution (ex : Path → Bool)
    (ts parent stem sfx : String) :
    (∀ n, 1 ≤ n → n ≤ 9999 →
      (∀ j, 1 ≤ j → j < n → ex (counter_name parent stem sfx j) = true) →
      ex (counter_name parent stem sfx n) = false →
      cr_generate_unique_name ex ts parent stem sfx =
        counter_name parent stem sfx n) ∧
    (∀ n, 1 ≤ n → n ≤ 1000 →
      (∀ j, 1 ≤ j → j < n → ex (counter_name parent stem sfx j) = true) →
      ex (counter_name parent stem sfx n) = false →
      ex (parent ++ "/" ++ stem ++ sfx) = true →
      fo_resolve_conflict ex parent stem sfx =
        .ok (counter_name parent stem sfx n)) ∧
    ((∀ j, ex (counter_name parent stem sfx j) = true) →
      cr_generate_unique_name ex ts parent stem sfx =
        timestamp_name parent stem sfx ts) ∧
    ((∀ j, ex (counter_name parent stem sfx j) = true) →
      ex (parent ++ "/" ++ stem ++ sfx) = true →
      fo_resolve_conflict ex parent stem sfx =
        .error "Too many files with same name") := by
  refine ⟨?_, ?_, ?_, ?_⟩
  · intro n h1 h9999 hocc hfree
    unfold cr_generate_unique_name
    have heq : n = 1 + (n - 1) := by omega
    rw [heq] at hfree ⊢
    exact cr_try_first_free ex ts parent stem sfx (n - 1) 9999 1 (by omega)
      (fun j hj1 hj2 => hocc j hj1 (by omega)) hfree
  · intro n h1 h1000 hocc hfree hdest
    unfold fo_resolve_conflict
    simp [hdest]
    have heq : n = 1 + (n - 1) := by omega
    rw [heq] at hfree ⊢
    exact fo_try_first_free ex parent stem sfx (n - 1) 1000 1 (by omega)
      (fun j hj1 hj2 => hocc j hj1 (by omega)) hfree
  · intro hall
    exact cr_try_exhaust ex ts parent stem sfx hall 9999 1
  · intro hall hdest
    unfold fo_resolve_conflict
    simp [hdest]
    exact fo_try_exhaust ex parent stem sfx hall 1000 1

/-- Existence predicate with `d/r.pdf` and `d/r_1.pdf` present. -/
def exTwo : Path → Bool := fun q => (q == "d/r.pdf") || (q == "d/r_1.pdf")

theorem rename_conflict_resolution_witness :
    cr_generate_unique_name exTwo "20250101_000000" "d" "r" ".pdf" =
      counter_name "d" "r" ".pdf" 2 ∧
    fo_resolve_conflict exTwo "d" "r" ".pdf" =
      .ok (counter_name "d" "r" ".pdf" 2) ∧
    cr_generate_unique_name (fun _ => true) "20250101_000000" "d" "r" ".pdf" =
      timestamp_name "d" "r" ".pdf" "20250101_000000" ∧
    fo_resolve_conflict (fun _ => true) "d" "r" ".pdf" =
      .error "Too many files with same name" :=
  ⟨(rename_conflict_resolution exTwo "20250101_000000" "d" "r" ".pdf").1 2
      (by decide) (by decide)
      (by intro j hj1 hj2
          have : j = 1 := by omega
          subst this
          decide)
      (by decide),
   (rename_conflict_resolution exTwo "20250101_000000" "d" "r" ".pdf").2.1 2
      (by decide) (by decide)
      (by intro j hj1 hj2
          have : j = 1 := by omega
          subst this
          decide)
      (by decide) (by decide),
   (rename_conflict_resolution (fun _ => true) "20250101_000000" "d" "r" ".pdf").2.2.1
      (fun _ => rfl),
   (rename_conflict_resolution (fun _ => true) "20250101_000000" "d" "r" ".pdf").2.2.2
      (fun _ => rfl) rfl⟩

/-! ### `HistoryTracker` (`history_tracker.py`)

The ledger is a list of entries plus the `_next_id` counter.  Loading
(`_load_history`, lines 83-97) reads the persisted file; a parse failure
(`json.JSONDecodeError` / `KeyError`) is caught, logged and replaced by an
empty history.  Undo (`undo_last` / `undo_by_id` / `_undo_entry`, lines
153-212) scans for an eligible entry and moves the file back. -/

/-- `HistoryEntry` (lines 21-45); the wall-clock `timestamp` is omitted. -/
structure HistoryEntry where
  id : Nat
  operation : String
  source_path : String
  dest_path : String
  category : String := ""
  subcategory : String := ""
  file_size : Nat := 0
  can_undo : Bool := true
deriving DecidableEq, Repr

/-- The decoded content of the persisted ledger file. -/
structure LedgerData where
  next_id : Nat
  entries : List HistoryEntry
deriving DecidableEq, Repr

/-- The state of the ledger file on disk when the tracker is constructed:
absent, present but unparseable, or parseable. -/
inductive LedgerFile where
  | missing
  | corrupt (msg : String)
  | parsed (d : LedgerData)
deriving DecidableEq, Repr

/-- `HistoryTracker._load_history` (lines 83-97) as run by the
constructor: the resulting `(history, next_id)` pair.  A parse error is
caught (line 95), a warning is logged, and the tracker keeps
`_history = []` and the initial `_next_id = 1`. -/
def load_history : LedgerFile → List HistoryEntry × Nat
  | .missing => ([], 1)
  | .corrupt _ => ([], 1)
  | .parsed d => (d.entries, d.next_id)

/-- C6 counterexample: constructing over an unparseable ledger file yields
the ordinary empty-history state `([], 1)` — the very same state as for a
missing file — instead of aborting or surfacing the parse error. -/
theorem load_history_corrupt_defaults :
    load_history (LedgerFile.corrupt "Expecting value: line 1 column 1") =
      ([], 1) := rfl

/-- C6 amended: a ledger file that exists but cannot be parsed is
swallowed: the tracker logs a warning and continues with an empty history
and `next_id = 1`, indistinguishable from a missing ledger; no error
reaches the caller. -/
theorem load_history_corrupt_continues (msg : String) :
    load_history (LedgerFile.corrupt msg) = ([], 1) ∧
    load_history (LedgerFile.corrupt msg) = load_history LedgerFile.missing :=
  ⟨rfl, rfl⟩

/-- `_save_history` (lines 99-113): trim to the newest
`MAX_HISTORY_SIZE = 1000` entries when over the bound (persistence to
disk itself is outside the model). -/
def save_history (hist : List HistoryEntry) : List HistoryEntry :=
  if hist.length > 1000 then hist.drop (hist.length - 1000) else hist

/-- `_undo_entry` (lines 184-212) acting on entry `i`: if the recorded
destination is gone, only flip `can_undo` and save; otherwise move the file
back (destination content reappears at the source path) and flip
`can_undo`.  Returns the reported entry, the new ledger and the new
filesystem. -/
def undo_entry (fs : FS) (hist : List HistoryEntry) (i : Nat) :
    Option HistoryEntry × List HistoryEntry × FS :=
  match hist.get? i with
  | none => (none, hist, fs)
  | some e =>
    let e' := { e with can_undo := false }
    if (fs e.dest_path).isNone then
      (some e', save_history (hist.set i e'), fs)
    else
      (some e', save_history (hist.set i e'),
       fun q => if q = e.source_path then fs e.dest_path
                else if q = e.dest_path then none else fs q)

/-- Index of the last element satisfying `p` (the backward scan of
`undo_last`, lines 160-163). -/
def find_last_idx (p : HistoryEntry → Bool) : List HistoryEntry → Option Nat
  | [] => none
  | e :: rest =>
    match find_last_idx p rest with
    | some j => some (j + 1)
    | none => if p e then some 0 else none

/-- Index of the first element satisfying `p` (the forward scan of
`undo_by_id`, lines 177-179). -/
def find_first_idx (p : HistoryEntry → Bool) : List HistoryEntry → Option Nat
  | [] => none
  | e :: rest => if p e then some 0 else (find_first_idx p rest).map (· + 1)

/-- `undo_last` (lines 153-166): newest-first scan for an undoable move
entry; `none` and no state change when there is none. -/
def undo_last (fs : FS) (hist : List HistoryEntry) :
    Option HistoryEntry × List HistoryEntry × FS :=
  match find_last_idx (fun e => e.can_undo && (e.operation == "move")) hist with
  | none => (none, hist, fs)
  | some i => undo_entry fs hist i

/-- `undo_by_id` (lines 168-182): first entry carrying the id and still
undoable; `none` and no state change when there is none. -/
def undo_by_id (fs : FS) (hist : List HistoryEntry) (eid : Nat) :
    Option HistoryEntry × List HistoryEntry × FS :=
  match find_first_idx (fun e => (e.id == eid) && e.can_undo) hist with
  | none => (none, hist, fs)
  | some i => undo_entry fs hist i

theorem find_last_idx_eq_none (p : HistoryEntry → Bool)
    (l : List HistoryEntry) (h : ∀ e ∈ l, p e = false) :
    find_last_idx p l = none := by
  induction l with
  | nil => rfl
  | cons e rest ih =>
    unfold find_last_idx
    rw [ih (fun x hx => h x (List.mem_cons_of_mem e hx))]
    simp [h e (List.mem_cons_self e rest)]

theorem find_first_idx_eq_none (p : HistoryEntry → Bool)
    (l : List HistoryEntry) (h : ∀ e ∈ l, p e = false) :
    find_first_idx p l = none := by
  induction l with
  | nil => rfl
  | cons e rest ih =>
    unfold find_first_idx
    rw [ih (fun x hx => h x (List.mem_cons_of_mem e hx))]
    simp [h e (List.mem_cons_self e rest)]

/-- C10: when no entry is an undoable move, `undo_last` returns `None`
and leaves both the ledger and the filesystem untouched; when no entry
with the given id is undoable, `undo_by_id` does the same. -/
theorem undo_nothing_to_undo (fs : FS) (hist : List HistoryEntry) (eid : Nat) :
    ((∀ e ∈ hist, ¬(e.can_undo = true ∧ e.operation = "move")) →
      undo_last fs hist = (none, hist, fs)) ∧
    ((∀ e ∈ hist, ¬(e.id = eid ∧ e.can_undo = true)) →
      undo_by_id fs hist eid = (none, hist, fs)) := by
  constructor
  · intro h
    have hp : ∀ e ∈ hist, (e.can_undo && (e.operation == "move")) = false := by
      intro e he
      have := h e he
      cases hcu : e.can_undo
      · simp
      · simp only [hcu, Bool.true_and, beq_eq_false_iff_ne, ne_eq]
        intro hop
        exact this ⟨hcu, hop⟩
    unfold undo_last
    rw [find_last_idx_eq_none _ _ hp]
  · intro h
    have hp : ∀ e ∈ hist, ((e.id == eid) && e.can_undo) = false := by
      intro e he
      have := h e he
      cases hid : (e.id == eid)
      · simp
      · simp only [hid, Bool.true_and]
        cases hcu : e.can_undo
        · rfl
        · have hideq : e.id = eid := by simpa using hid
          exact absurd ⟨hideq, hcu⟩ this
    unfold undo_by_id
    rw [find_first_idx_eq_none _ _ hp]

/-- An already-undone move entry. -/
def histDone : List HistoryEntry :=
  [{ id := 1, operation := "move", source_path := "s", dest_path := "d",
     can_undo := false }]

/-- An empty filesystem snapshot. -/
def fsEmpty : FS := fun _ => none

theorem undo_nothing_to_undo_witness :
    undo_last fsEmpty histDone = (none, histDone, fsEmpty) ∧
    undo_by_id fsEmpty histDone 2 = (none, histDone, fsEmpty) :=
  ⟨(undo_nothing_to_undo fsEmpty histDone 2).1 (by decide),
   (undo_nothing_to_undo fsEmpty histDone 2).2 (by decide)⟩

/-! ### `FileSettlingChecker` / `OrganizerEventHandler` (`watcher.py`)

`is_file_ready` (lines 85-135) samples the file once per loop iteration;
one iteration's observation is the `stat` result (`none` models the
`OSError` that aborts with `False`) together with whether `open(_, 'rb')`
would succeed at that instant.  The sample list is the loop's
`max_checks` budget.  Crucially, when the loop exhausts its budget the
function falls back to `stable_count >= 1 and previous_size > 0`
(line 135) — *without* the open-for-read probe. -/

/-- One settling-loop observation: `stat` result and openability. -/
abbrev Sample := Option Nat × Bool

/-- The loop of `is_file_ready` (lines 106-135): `prev` is
`previous_size` (initially `-1`), `stable` is `stable_count`, `st` is
`stability_checks`. -/
def is_file_ready_go (st : Nat) : Int → Nat → List Sample → Bool
  | prev, stable, [] => decide (1 ≤ stable) && decide (0 < prev)
  | prev, stable, (o, copen) :: rest =>
    match o with
    | none => false
    | some s =>
      if (s : Int) = prev ∧ 0 < s then
        if st ≤ stable + 1 then
          if copen then true
          else is_file_ready_go st (s : Int) 0 rest
        else is_file_ready_go st (s : Int) (stable + 1) rest
      else is_file_ready_go st (s : Int) 0 rest

/-- `FileSettlingChecker.is_file_ready` (lines 85-135): `exists0` is the
initial `file_path.exists()` probe, `st` is `stability_checks`
(default 2), the sample list carries one entry per loop iteration
(`max_checks` of them). -/
def is_file_ready (exists0 : Bool) (st : Nat) (samples : List Sample) : Bool :=
  if exists0 = false then false else is_file_ready_go st (-1) 0 samples

/-- Two consecutive samples report the same non-zero size. -/
def has_stable_pair : List Sample → Bool
  | [] => false
  | [_] => false
  | a :: b :: rest =>
    (match a.1, b.1 with
     | some s, some s' => decide (s = s' ∧ 0 < s)
     | _, _ => false) || has_stable_pair (b :: rest)

/-- Every sample's stat succeeds and the size strictly grows each step. -/
def strictly_growing : List Sample → Bool
  | [] => true
  | [(o, _)] => o.isSome
  | a :: b :: rest =>
    (match a.1, b.1 with
     | some s, some s' => decide (s < s')
     | _, _ => false) && strictly_growing (b :: rest)

theorem has_stable_pair_cons (a : Sample) (l : List Sample)
    (h : has_stable_pair l = true) : has_stable_pair (a :: l) = true := by
  cases l with
  | nil => simp [has_stable_pair] at h
  | cons b rest => simp [has_stable_pair, h]

theorem is_file_ready_go_two (samples : List Sample) :
    ∀ (prev : Int) (stable : Nat),
      is_file_ready_go 2 prev stable samples = true →
      has_stable_pair samples = true ∨
      (∃ s c rest, samples = (some s, c) :: rest ∧ (s : Int) = prev ∧ 0 < s) ∨
      (samples = [] ∧ 1 ≤ stable ∧ 0 < prev) := by
  induction samples with
  | nil =>
    intro prev stable h
    simp only [is_file_ready_go, Bool.and_eq_true, decide_eq_true_eq] at h
    exact Or.inr (Or.inr ⟨rfl, h.1, h.2⟩)
  | cons smp rest ih =>
    intro prev stable h
    obtain ⟨o, copen⟩ := smp
    cases o with
    | none => simp [is_file_ready_go] at h
    | some s =>
      unfold is_file_ready_go at h
      rw [show (match some s with
          | none => false
          | some s =>
            if (s : Int) = prev ∧ 0 < s then
              if 2 ≤ stable + 1 then
                if copen = true then true else is_file_ready_go 2 (s : Int) 0 rest
              else is_file_ready_go 2 (s : Int) (stable + 1) rest
            else is_file_ready_go 2 (s : Int) 0 rest) =
          (if (s : Int) = prev ∧ 0 < s then
            if 2 ≤ stable + 1 then
              if copen = true then true else is_file_ready_go 2 (s : Int) 0 rest
            else is_file_ready_go 2 (s : Int) (stable + 1) rest
          else is_file_ready_go 2 (s : Int) 0 rest) from rfl] at h
      by_cases hc : (s : Int) = prev ∧ 0 < s
      · rw [if_pos hc] at h
        by_cases hst : 2 ≤ stable + 1
        · rw [if_pos hst] at h
          cases hcopen : copen
          · rw [hcopen] at h
            simp only [Bool.false_eq_true, if_false] at h
            rcases ih (s : Int) 0 h with hsp | ⟨s', c', rest', hr, hs', hpos'⟩ | ⟨hr, hst1, _⟩
            · exact Or.inl (has_stable_pair_cons _ _ hsp)
            · left
              rw [hr]
              have hss : s' = s := by exact_mod_cast hs'
              simp [has_stable_pair, hss, hc.2]
            · simp at hst1
          · rw [hcopen] at h
            exact Or.inr (Or.inl ⟨s, copen, rest, by rw [hcopen], hc.1, hc.2⟩)
        · rw [if_neg hst] at h
          rcases ih (s : Int) (stable + 1) h with hsp | ⟨s', c', rest', hr, hs', hpos'⟩ | ⟨hr, _, _⟩
          · exact Or.inl (has_stable_pair_cons _ _ hsp)
          · left
            rw [hr]
            have hss : s' = s := by exact_mod_cast hs'
            simp [has_stable_pair, hss, hc.2]
          · subst hr
            exact Or.inr (Or.inl ⟨s, copen, [], rfl, hc.1, hc.2⟩)
      · rw [if_neg hc] at h
        rcases ih (s : Int) 0 h with hsp | ⟨s', c', rest', hr, hs', hpos'⟩ | ⟨hr, hst1, _⟩
        · exact Or.inl (has_stable_pair_cons _ _ hsp)
        · left
          rw [hr]
          have hss : s' = s := by exact_mod_cast hs'
          simp [has_stable_pair, hss]
          omega
        · simp at hst1

theorem strictly_growing_no_stable_pair (samples : List Sample)
    (h : strictly_growing samples = true) : has_stable_pair samples = false := by
  induction samples with
  | nil => rfl
  | cons a rest ih =>
    cases rest with
    | nil => rfl
    | cons b rest' =>
      unfold strictly_growing at h
      rw [Bool.and_eq_true] at h
      unfold has_stable_pair
      rw [ih h.2, Bool.or_false]
      obtain ⟨oa, ca⟩ := a
      obtain ⟨ob, cb⟩ := b
      cases oa with
      | none => rfl
      | some s =>
        cases ob with
        | none => rfl
        | some s' =>
          have hlt : s < s' := by
            have := h.1
            simp at this
            exact this
          simp
          omega

/-! The settle-failure path of `_handle_file_event` (lines 268-280):
when `wait_for_file` reports not-ready, the path is not enqueued and its
debounce entry is cleared; when it reports ready, `_mark_processing`
admits the path only if it is not already in `_processing_set`. -/

/-- Per-handler mutable state: `_processing_set` and the debounce
tracker's `_pending` map (path → last event time). -/
structure HandlerState where
  processing_set : List String
  pending : List (String × Int)
deriving DecidableEq, Repr

/-- `DebounceTracker.clear` (lines 63-70). -/
def debounce_clear (st : HandlerState) (p : String) : HandlerState :=
  { st with pending := aerase st.pending p }

/-- The `wait_and_enqueue` closure (lines 269-277) given the settling
verdict; the returned boolean is `true` iff the path was enqueued. -/
def wait_and_enqueue (st : HandlerState) (p : String) (ready : Bool) :
    HandlerState × Bool :=
  if ready then
    if p ∈ st.processing_set then (st, false)
    else ({ st with processing_set := p :: st.processing_set }, true)
  else (debounce_clear st p, false)

/-- C7 counterexample: ten samples of the same non-zero size on a file
that can never be opened for read (it stays locked by its writer).  The
budget-exhaustion fallback of line 135 still reports the file ready, so
"ready only when ... the file can be opened for read" fails. -/
theorem is_file_ready_ignores_open_on_timeout :
    is_file_ready true 2 (List.replicate 10 ((some 5 : Option Nat), false)) = true ∧
    (List.replicate 10 ((some 5 : Option Nat), false)).all
      (fun smp => !smp.2) = true := by
  constructor
  · decide
  · decide

/-- C7 amended: the settling check reports a file ready only when two
consecutive size samples report the same non-zero size (the open-for-read
probe is applied only to in-budget readiness; the budget-exhaustion
fallback of line 135 skips it); a file whose size strictly grows at every
sample is never reported ready; and a file that is not ready is not
enqueued and has its debounce state cleared. -/
theorem settling_check_properties :
    (∀ (exists0 : Bool) (samples : List Sample),
      is_file_ready exists0 2 samples = true →
      has_stable_pair samples = true) ∧
    (∀ (exists0 : Bool) (samples : List Sample),
      strictly_growing samples = true →
      is_file_ready exists0 2 samples = false) ∧
    (∀ (st : HandlerState) (p : String),
      wait_and_enqueue st p false = (debounce_clear st p, false)) := by
  have hready : ∀ (exists0 : Bool) (samples : List Sample),
      is_file_ready exists0 2 samples = true →
      has_stable_pair samples = true := by
    intro exists0 samples h
    unfold is_file_ready at h
    cases exists0 with
    | false => simp at h
    | true =>
      simp only [Bool.true_eq_false, if_neg (by simp : ¬(true = false))] at h
      rcases is_file_ready_go_two samples (-1) 0 h with hsp | ⟨s, c, rest, _, hs, hpos⟩ | ⟨_, hst, _⟩
      · exact hsp
      · omega
      · omega
  refine ⟨hready, ?_, ?_⟩
  · intro exists0 samples hgrow
    by_contra hne
    rw [Bool.not_eq_false] at hne
    have := hready exists0 samples hne
    rw [strictly_growing_no_stable_pair samples hgrow] at this
    exact Bool.false_ne_true this
  · intro st p
    rfl

theorem settling_check_properties_witness :
    has_stable_pair (List.replicate 10 ((some 5 : Option Nat), false)) = true ∧
    is_file_ready true 2
      [((some 1 : Option Nat), true), (some 2, true), (some 3, true)] = false ∧
    wait_and_enqueue ⟨["x"], [("y", 0)]⟩ "y" false =
      (debounce_clear ⟨["x"], [("y", 0)]⟩ "y", false) :=
  ⟨settling_check_properties.1 true (List.replicate 10 ((some 5 : Option Nat), false))
      (by decide),
   settling_check_properties.2.1 true
      [((some 1 : Option Nat), true), (some 2, true), (some 3, true)] (by decide),
   settling_check_properties.2.2 ⟨["x"], [("y", 0)]⟩ "y"⟩

/-! ### `Tier2ContentClassifier` (`tier2_content.py`)

The regex engine is abstracted by an oracle `search : String → Bool`
telling, for the (fixed, lower-cased) text under classification, whether
`re.search(pattern, text, re.IGNORECASE)` finds a match; everything else —
the pattern data, match counting, the stable sort by descending match
count, thresholds, confidence and the sensitivity flag — is embedded from
the source.  Python's float literals become exact rationals; every
comparison the code performs gives the same verdict on both. -/

/-- `ClassificationResult` (`tier1_metadata.py` lines 35-64); the
`metadata` dict and the derived `suggested_folder` are omitted. -/
inductive FileCategory where
  | documents
  | images
  | audio
  | video
  | archives
  | installers
  | code
  | data
  | ebooks
  | fonts
  | unknown
deriving DecidableEq, Repr

structure ClassificationResult where
  category : FileCategory
  subcategory : Option String := none
  confidence : ℚ := 1
  classification_tier : Nat := 1
  is_sensitive : Bool := false
  needs_deeper_analysis : Bool := false
deriving DecidableEq, Repr

/-- `ContentPattern` (lines 21-36). -/
structure ContentPattern where
  patterns : List String
  category : String
  subcategory : String
  sensitivity_boost : ℚ := 0
  confidence : ℚ := 8/10
deriving DecidableEq, Repr

/-- `FINANCIAL_PATTERNS` (lines 43-49). -/
def FINANCIAL_PATTERNS : List String :=
  ["\\b(?:invoice|bill|receipt|payment|transaction)\\b",
   "\\$[\\d,]+\\.?\\d*",
   "\\b(?:bank|account|balance|credit|debit)\\b",
   "\\b(?:tax|IRS|W-2|1099|salary|income)\\b",
   "\\b(?:mortgage|loan|interest rate|principal)\\b"]

/-- `MEDICAL_PATTERNS` (lines 52-58). -/
def MEDICAL_PATTERNS : List String :=
  ["\\b(?:patient|diagnosis|prescription|medication)\\b",
   "\\b(?:doctor|physician|hospital|clinic|medical)\\b",
   "\\b(?:treatment|therapy|symptoms|health)\\b",
   "\\b(?:insurance claim|copay|deductible)\\b",
   "\\b(?:blood pressure|heart rate|BMI|cholesterol)\\b"]

/-- `LEGAL_PATTERNS` (lines 61-67). -/
def LEGAL_PATTERNS : List String :=
  ["\\b(?:contract|agreement|terms|conditions)\\b",
   "\\b(?:party|parties|herein|whereas|hereby)\\b",
   "\\b(?:court|legal|attorney|lawyer|law firm)\\b",
   "\\b(?:plaintiff|defendant|lawsuit|litigation)\\b",
   "\\b(?:notarized|affidavit|deposition)\\b"]

/-- `RECEIPT_PATTERNS` (lines 70-76). -/
def RECEIPT_PATTERNS : List String :=
  ["\\b(?:receipt|order|purchase|item|qty|quantity)\\b",
   "\\b(?:subtotal|total|tax|tip|gratuity)\\b",
   "\\b(?:visa|mastercard|amex|payment method)\\b",
   "\\b(?:thank you for your purchase)\\b",
   "\\bitem\\s+\\d+\\b"]

/-- `INVOICE_PATTERNS` (lines 79-84). -/
def INVOICE_PATTERNS : List String :=
  ["\\b(?:invoice|inv|bill to|ship to)\\b",
   "\\binvoice\\s*(?:#|number|no\\.?)\\s*\\d+",
   "\\b(?:due date|payment due|net 30|net 60)\\b",
   "\\b(?:amount due|balance due|please pay)\\b"]

/-- `PERSONAL_ID_PATTERNS` (lines 87-92). -/
def PERSONAL_ID_PATTERNS : List String :=
  ["\\b\\d\x7b3\x7d-\\d\x7b2\x7d-\\d\x7b4\x7d\\b",
   "\\b(?:social security|SSN)\\b",
   "\\b(?:passport|driver.?s? license|ID card)\\b",
   "\\b(?:date of birth|DOB)\\b"]

/-- The six pattern sets built in `PatternMatcher.__init__`
(lines 96-133), with their sensitivity boosts. -/
def financial_set : ContentPattern :=
  { patterns := FINANCIAL_PATTERNS, category := "Finance",
    subcategory := "Financial", sensitivity_boost := 3/10 }

def medical_set : ContentPattern :=
  { patterns := MEDICAL_PATTERNS, category := "Medical",
    subcategory := "Medical", sensitivity_boost := 5/10 }

def legal_set : ContentPattern :=
  { patterns := LEGAL_PATTERNS, category := "Legal",
    subcategory := "Legal", sensitivity_boost := 3/10 }

def receipt_set : ContentPattern :=
  { patterns := RECEIPT_PATTERNS, category := "Finance",
    subcategory := "Receipts", sensitivity_boost := 1/10 }

def invoice_set : ContentPattern :=
  { patterns := INVOICE_PATTERNS, category := "Finance",
    subcategory := "Invoices", sensitivity_boost := 2/10 }

def personal_id_set : ContentPattern :=
  { patterns := PERSONAL_ID_PATTERNS, category := "Personal",
    subcategory := "Identity", sensitivity_boost := 8/10 }

def pattern_sets : List ContentPattern :=
  [financial_set, medical_set, legal_set, receipt_set, invoice_set,
   personal_id_set]

/-- Stable insertion for the descending sort of
`results.sort(key=lambda x: x[1], reverse=True)` (line 165): among equal
match counts the original (pattern-set) order is preserved. -/
def insert_desc (x : ContentPattern × Nat) :
    List (ContentPattern × Nat) → List (ContentPattern × Nat)
  | [] => [x]
  | y :: ys => if x.2 ≤ y.2 then y :: insert_desc x ys else x :: y :: ys

/-- `PatternMatcher.match` (lines 144-166): count matching patterns per
set, keep sets with at least one match, sort by match count descending
(stably). -/
def pattern_matcher_match (search : String → Bool) :
    List (ContentPattern × Nat) :=
  let results := pattern_sets.filterMap (fun pattern_set =>
    let match_count := pattern_set.patterns.countP (fun pat => search pat)
    if match_count > 0 then some (pattern_set, match_count) else none)
  results.foldl (fun acc x => insert_desc x acc) []

/-- `Tier2ContentClassifier.classify` (lines 182-261).  `text_blank`
models `not text or not text.strip()`.  The two identical weak-match arms
mirror the single `if not matches or matches[0][1] < self.MIN_MATCHES`
condition of line 211 (`MIN_MATCHES = 2`). -/
def tier2_classify (search : String → Bool) (text_blank : Bool)
    (tier1_result : Option ClassificationResult) : ClassificationResult :=
  if text_blank then
    match tier1_result with
    | some r => r
    | none =>
      { category := .unknown, classification_tier := 2,
        needs_deeper_analysis := true }
  else
    match pattern_matcher_match search with
    | [] =>
      match tier1_result with
      | some r => { r with classification_tier := 2, needs_deeper_analysis := true }
      | none =>
        { category := .documents, subcategory := some "General",
          classification_tier := 2, confidence := 1/2,
          needs_deeper_analysis := true }
    | (best_pattern, match_count) :: _ =>
      if match_count < 2 then
        match tier1_result with
        | some r => { r with classification_tier := 2, needs_deeper_analysis := true }
        | none =>
          { category := .documents, subcategory := some "General",
            classification_tier := 2, confidence := 1/2,
            needs_deeper_analysis := true }
      else
        let confidence : ℚ := min (1/2 + (match_count : ℚ) * (1/10)) (9/10)
        { category := .documents,
          subcategory :=
            some (best_pattern.category ++ "/" ++ best_pattern.subcategory),
          confidence := confidence,
          classification_tier := 2,
          is_sensitive := decide (best_pattern.sensitivity_boost > 3/10),
          needs_deeper_analysis := decide (confidence < 7/10) }

/-- A tier-1 result that flagged the file as sensitive (as tier 1 does for
e.g. `.pdf`) and asked for deeper analysis. -/
def tier1_sensitive : ClassificationResult :=
  { category := .documents, confidence := 1, classification_tier := 1,
    is_sensitive := true, needs_deeper_analysis := true }

/-- A text in which exactly the first two receipt patterns match. -/
def search_receipts : String → Bool := fun s =>
  (s == "\\b(?:receipt|order|purchase|item|qty|quantity)\\b") ||
  (s == "\\b(?:subtotal|total|tax|tip|gratuity)\\b")

/-- C8 counterexample: tier 1 marked the file sensitive, tier 2 finds a
strong receipt match (boost 0.1 ≤ 0.3) and returns a fresh result with
`is_sensitive = false` — the earlier tier's flag is silently cleared. -/
theorem tier2_clears_sensitivity_flag :
    tier1_sensitive.is_sensitive = true ∧
    (tier2_classify search_receipts false (some tier1_sensitive)).is_sensitive
      = false := by
  refine ⟨rfl, ?_⟩
  have hm : pattern_matcher_match search_receipts = [(receipt_set, 2)] := rfl
  unfold tier2_classify
  rw [if_neg (by simp : ¬(false = true)), hm]
  dsimp only
  rw [if_neg (by omega : ¬(2 < 2))]
  dsimp only
  rw [decide_eq_false_iff_not]
  norm_num [receipt_set]

/-- C8 amended: tier 2 carries an earlier tier's `is_sensitive` flag
through unchanged only on its pass-through branches (blank text, or no
match reaching `MIN_MATCHES`); on a strong match it builds a fresh result
whose `is_sensitive` is recomputed solely as
`best_pattern.sensitivity_boost > 0.3`, so a flag set by tier 1 can be
cleared. -/
theorem tier2_sensitivity_propagation (search : String → Bool)
    (r : ClassificationResult) :
    (tier2_classify search true (some r)).is_sensitive = r.is_sensitive ∧
    (∀ bp cnt rest, pattern_matcher_match search = (bp, cnt) :: rest →
      cnt < 2 →
      (tier2_classify search false (some r)).is_sensitive = r.is_sensitive) ∧
    (pattern_matcher_match search = [] →
      (tier2_classify search false (some r)).is_sensitive = r.is_sensitive) ∧
    (∀ bp cnt rest, pattern_matcher_match search = (bp, cnt) :: rest →
      2 ≤ cnt →
      (tier2_classify search false (some r)).is_sensitive =
        decide (bp.sensitivity_boost > 3/10)) := by
  refine ⟨rfl, ?_, ?_, ?_⟩
  · intro bp cnt rest hm hcnt
    unfold tier2_classify
    rw [if_neg (by simp : ¬(false = true)), hm]
    dsimp only
    rw [if_pos hcnt]
  · intro hm
    unfold tier2_classify
    rw [if_neg (by simp : ¬(false = true)), hm]
  · intro bp cnt rest hm hcnt
    unfold tier2_classify
    rw [if_neg (by simp : ¬(false = true)), hm]
    dsimp only
    rw [if_neg (by omega : ¬(cnt < 2))]

theorem tier2_sensitivity_propagation_witness :
    (tier2_classify search_receipts true (some tier1_sensitive)).is_sensitive =
      tier1_sensitive.is_sensitive ∧
    (tier2_classify search_receipts false (some tier1_sensitive)).is_sensitive =
      decide (receipt_set.sensitivity_boost > 3/10) :=
  ⟨(tier2_sensitivity_propagation search_receipts tier1_sensitive).1,
   (tier2_sensitivity_propagation search_receipts tier1_sensitive).2.2.2
     receipt_set 2 [] rfl (by norm_num)⟩

end SFO
